import Mathlib

set_option maxRecDepth 8000

/-!
Shallow embedding of the news-automation service in src/api/app.py.

The embedding keeps the source functions and their names where Lean allows
it.  Strings are modelled through their character lists; the regular
expressions of the source are modelled as explicit scanners over character
lists, with the same leftmost-match and alternative-order semantics the
Python re module uses on the ASCII inputs this program handles.  External
collaborators (the OpenAI intent resolver and content extractor, Firecrawl,
Resend, pytz) are modelled as abstract parameters; an uncaught Python
exception is an Except.error value.
-/

/-- Characters the Python escapes \s and str.strip treat as whitespace on
the ASCII inputs this program handles. -/
def isPyWs (c : Char) : Bool :=
  c == ' ' || c == '\t' || c == '\n' || c == '\r' || c == '\x0b' || c == '\x0c'

/-- First list is a prefix of the second. -/
def isPrefixList : List Char → List Char → Bool
  | [], _ => true
  | _ :: _, [] => false
  | a :: as, b :: bs => a == b && isPrefixList as bs

/-- The first list occurs as a contiguous substring of the second
(the Python in operator on strings). -/
def isSubstr (needle : List Char) : List Char → Bool
  | [] => isPrefixList needle []
  | c :: rest => isPrefixList needle (c :: rest) || isSubstr needle rest

/-- Python str.lower on the ASCII inputs this program handles. -/
def toLowerStr (s : String) : String :=
  String.mk (s.data.map Char.toLower)

/-- Python needle in hay substring test. -/
def strIn (needle hay : String) : Bool :=
  isSubstr needle.data hay.data

/-- Python str.strip. -/
def stripWsL (l : List Char) : List Char :=
  ((l.dropWhile isPyWs).reverse.dropWhile isPyWs).reverse

/-- Match of the regex https?://[^\s]+ anchored at the head of cs
(app.py line 64).  The s? group is tried greedily, and the final
[^\s]+ demands at least one non-whitespace character. -/
def matchUrlAt (cs : List Char) : Option (List Char) :=
  if isPrefixList ("https://".data) cs then
    match (cs.drop 8).takeWhile (fun c => !isPyWs c) with
    | [] => none
    | tail => some ("https://".data ++ tail)
  else if isPrefixList ("http://".data) cs then
    match (cs.drop 7).takeWhile (fun c => !isPyWs c) with
    | [] => none
    | tail => some ("http://".data ++ tail)
  else none

/-- Leftmost match of https?://[^\s]+ in the text: re.search semantics
(app.py lines 64-67 and line 287). -/
def searchHttpUrlAux : List Char → Option (List Char)
  | [] => none
  | c :: rest =>
    match matchUrlAt (c :: rest) with
    | some m => some m
    | none => searchHttpUrlAux rest

def searchHttpUrl (s : String) : Option String :=
  (searchHttpUrlAux s.data).map String.mk

/-- Word characters of the regex class \w on ASCII text. -/
def isWordChar (c : Char) : Bool := c.isAlphanum || c == '_'

def optWord : Option Char → Bool
  | some c => isWordChar c
  | none => false

/-- The word boundary \b between two neighbouring positions of the text;
an absent side (start or end of the text) counts as a non-word character. -/
def bdry (a b : Option Char) : Bool := optWord a != optWord b

/-- Alternatives of the stop-word pattern
\b(add|remove|website|site|www|com|https?://)\b of app.py line 72, in the
order the regex engine tries them (the greedy s? expands the last
alternative into two). -/
def stopAlts : List (List Char) :=
  ["add".data, "remove".data, "website".data, "site".data, "www".data,
   "com".data, "https://".data, "http://".data]

/-- Try one stop-word alternative at the current position.  p is the
character just before the position in the original text (the sub scans the
original text, so boundaries ignore earlier replacements).  On success,
returns the last character of the match and the match length minus one
(the scanner consumes the head character separately). -/
def tryAlt (p : Option Char) (w : List Char) (cs : List Char) : Option (Char × Nat) :=
  match w.getLast? with
  | none => none
  | some lc =>
    if isPrefixList w cs && bdry p w.head? && bdry (some lc) (cs.drop w.length).head? then
      some (lc, w.length - 1)
    else none

def stopMatchAt (p : Option Char) (cs : List Char) : Option (Char × Nat) :=
  stopAlts.findSome? (fun w => tryAlt p w cs)

/-- One left-to-right pass of re.sub(stop-word pattern, empty string, text):
non-overlapping leftmost matches are deleted.  The fuel argument only
makes the recursion structural; every step consumes at least one character,
so fuel equal to the length of the text is never exhausted. -/
def subStopFuel : Nat → Option Char → List Char → List Char
  | 0, _, l => l
  | fuel + 1, p, l =>
    match l with
    | [] => []
    | c :: cs =>
      match stopMatchAt p (c :: cs) with
      | some (lastc, k) => subStopFuel fuel (some lastc) (cs.drop k)
      | none => c :: subStopFuel fuel (some c) cs

def subStop (l : List Char) : List Char := subStopFuel l.length none l

/-- The common_sites table of app.py lines 79-91, in dict insertion order,
which is the iteration order of the loop on line 93. -/
def common_sites : List (String × String) :=
  [("techcrunch", "https://techcrunch.com"),
   ("verge", "https://theverge.com"),
   ("wired", "https://wired.com"),
   ("ars technica", "https://arstechnica.com"),
   ("hacker news", "https://news.ycombinator.com"),
   ("reddit", "https://reddit.com"),
   ("medium", "https://medium.com"),
   ("dev.to", "https://dev.to"),
   ("github", "https://github.com/trending"),
   ("product hunt", "https://producthunt.com"),
   ("indie hackers", "https://indiehackers.com")]

/-- text.lower().strip() followed by the stop-word sub and strip
(app.py lines 71-72). -/
def stripped_text (text : String) : List Char :=
  stripWsL (subStop (stripWsL (text.data.map Char.toLower)))

/-- Steps on the stripped text: bare-domain check, common-site table,
best-effort .com guess, empty failure (app.py lines 75-101). -/
def resolveStripped (t : List Char) : Option String :=
  if t.contains '.' then some ("https://" ++ String.mk t)
  else
    match common_sites.find? (fun p => isSubstr p.1.data t) with
    | some p => some p.2
    | none =>
      if t.isEmpty then none
      else some ("https://" ++ String.mk (t.filter (fun c => c != ' ')) ++ ".com")

/-- parse_url_from_text (app.py lines 61-101). -/
def parse_url_from_text (text : String) : Option String :=
  match searchHttpUrl text with
  | some url => some url
  | none => resolveStripped (stripped_text text)

def dropSuffixN (n : Nat) (l : List Char) : List Char := l.take (l.length - n)

def endsWithList (suf l : List Char) : Bool := isPrefixList suf.reverse l.reverse

/-- re.sub of the TLD suffix pattern \.(com|org|net|io|co|dev|ai)$ on the
domain (app.py line 110); at most one alternative can match at the end. -/
def stripTld (l : List Char) : List Char :=
  if endsWithList (".com".data) l then dropSuffixN 4 l
  else if endsWithList (".org".data) l then dropSuffixN 4 l
  else if endsWithList (".net".data) l then dropSuffixN 4 l
  else if endsWithList (".io".data) l then dropSuffixN 3 l
  else if endsWithList (".co".data) l then dropSuffixN 3 l
  else if endsWithList (".dev".data) l then dropSuffixN 4 l
  else if endsWithList (".ai".data) l then dropSuffixN 3 l
  else l

/-- Python str.capitalize: first character upper-cased, the rest lower-cased. -/
def pyCapitalize : List Char → List Char
  | [] => []
  | c :: rest => c.toUpper :: rest.map Char.toLower

/-- extract_site_name_from_url (app.py lines 103-114).  Every call site of
this program passes a URL produced by the https?://[^\s]+ regex, for which
urlparse yields netloc = the characters after the scheme marker up to the
first /, ? or #; for other strings urlparse yields an empty netloc and the
whole string as path, which the or on line 107 selects. -/
def extract_site_name_from_url (url : String) : String :=
  let domain :=
    if isPrefixList ("https://".data) url.data then
      (url.data.drop 8).takeWhile (fun c => c != '/' && c != '?' && c != '#')
    else if isPrefixList ("http://".data) url.data then
      (url.data.drop 7).takeWhile (fun c => c != '/' && c != '?' && c != '#')
    else url.data
  let d1 := if isPrefixList ("www.".data) domain then domain.drop 4 else domain
  String.mk (pyCapitalize (stripTld d1))

/-! ## Data model (app.py lines 39-47) -/

structure SourceRef where
  name : String
  url : String
deriving Repr, DecidableEq

structure UserData where
  email : String
  sources : List SourceRef
  timezone : String
  send_time : String
deriving Repr, DecidableEq

/-- A fresh record with the defaults of the UserData model
(app.py lines 43-47 and 268). -/
def defaultUser (email : String) : UserData :=
  { email := email, sources := [], timezone := "America/Los_Angeles", send_time := "08:00" }

/-- The structured intent returned by the OpenAI resolver
(app.py lines 140-144): intent name plus optional source, time and
timezone fields.  A none field models an absent key, so that
intent_data.get reads return the given default. -/
structure Intent where
  intent : Option String
  source : Option String
  time : Option String
  timezone : Option String
deriving Repr, DecidableEq

/-- The JSON body process_message answers with: the response string and
the optional confirmUrl key of the add_source branch (app.py line 282). -/
structure Resp where
  response : String
  confirmUrl : Option String
deriving Repr, DecidableEq

/-- Python truthiness of an optional string field (if time_str: and
similar guards). -/
def truthy : Option String → Bool
  | none => false
  | some s => !s.data.isEmpty

/-- The timezone database behind pytz.timezone: a resolvable zone name
yields its UTC-offset-in-minutes function of the instant (the offset may
depend on the instant, which models daylight saving); an unresolvable name
yields none, modelling the UnknownTimeZoneError pytz raises. -/
abbrev TZDB := String → Option (Int → Int)

/-- source_text in source(name).lower() or source_text in url.lower()
(app.py line 306). -/
def matchesSource (txt : String) (s : SourceRef) : Bool :=
  strIn txt (toLowerStr s.name) || strIn txt (toLowerStr s.url)

/-- The remove_source loop (app.py lines 305-310): pop the first source
whose lowered name or url contains the text, returning it and the
remaining list; none when no source matches. -/
def removeFirst (txt : String) : List SourceRef → Option (SourceRef × List SourceRef)
  | [] => none
  | s :: rest =>
    if matchesSource txt s then some (s, rest)
    else
      match removeFirst txt rest with
      | some (r, l) => some (r, s :: l)
      | none => none

/-! ## The user state machine: process_message for an existing record
(app.py lines 272-364).

The first component of the result is the record after the message (none
means the record was deleted by unsubscribe); the second is the response
body (none models the fall-through in the set_timezone branch, which ends
the handler without a return statement when the timezone field is falsy,
so the request gets no response body). -/

def applyIntent (tzdb : TZDB) (u : UserData) (d : Intent) (rawMessage : String) :
    Option UserData × Option Resp :=
  if d.intent = some "add_source" then
    let source_text := d.source.getD rawMessage
    match parse_url_from_text source_text with
    | some url =>
      (some u, some { response := "Is this the correct URL: " ++ url ++ "?", confirmUrl := some url })
    | none =>
      (some u, some { response := "Could not parse URL. Please provide a valid URL or website name.",
                      confirmUrl := none })
  else if d.intent = some "confirm_add_source" then
    match searchHttpUrl rawMessage with
    | some url =>
      let name := extract_site_name_from_url url
      if u.sources.any (fun s => s.url == url) then
        (some u, some { response := "You already have " ++ name ++ " in your sources.",
                        confirmUrl := none })
      else
        (some { u with sources := u.sources ++ [{ name := name, url := url }] },
         some { response := "Added " ++ name ++ " to your sources. Add another or say \x27done\x27.",
                confirmUrl := none })
    | none =>
      (some u, some { response := "Could not find URL to add.", confirmUrl := none })
  else if d.intent = some "remove_source" then
    let source_text := toLowerStr (d.source.getD "")
    match removeFirst source_text u.sources with
    | some (removed, rest) =>
      (some { u with sources := rest },
       some { response := "Removed " ++ removed.name ++ " from your sources.", confirmUrl := none })
    | none =>
      (some u, some { response := "Source not found in your list.", confirmUrl := none })
  else if d.intent = some "change_time" then
    if truthy d.time then
      let t := d.time.getD ""
      (some { u with send_time := t },
       some { response := "Changed delivery time to " ++ t ++ ".", confirmUrl := none })
    else
      (some u, some { response := "Please specify a valid time (e.g., 09:30).", confirmUrl := none })
  else if d.intent = some "set_timezone" then
    if truthy d.timezone then
      let tz := d.timezone.getD ""
      match tzdb tz with
      | some _ =>
        (some { u with timezone := tz },
         some { response := "Set timezone to " ++ tz ++ ".", confirmUrl := none })
      | none =>
        (some u, some { response := "Invalid timezone. Please use format like \x27America/New_York\x27 or \x27Europe/London\x27.",
                        confirmUrl := none })
    else
      (some u, none)
  else if d.intent = some "set_time_and_timezone" then
    if truthy d.time && truthy d.timezone then
      let t := d.time.getD ""
      let tz := d.timezone.getD ""
      match tzdb tz with
      | some _ =>
        (some { u with send_time := t, timezone := tz },
         some { response := "Perfect! I\x27ll send your digest at " ++ t ++ " " ++ tz ++ ".",
                confirmUrl := none })
      | none =>
        (some u, some { response := "Invalid timezone. Please try again with a valid timezone.",
                        confirmUrl := none })
    else
      (some u, some { response := "Please specify both time and timezone (e.g., \x275:03 pm pst\x27).",
                      confirmUrl := none })
  else if d.intent = some "view_sources" then
    if !u.sources.isEmpty then
      let sources_list := String.intercalate ", " (u.sources.map (fun s => s.name))
      (some u, some { response := "Your sources: " ++ sources_list ++ ". Delivery: " ++ u.send_time ++ " " ++ u.timezone ++ ".",
                      confirmUrl := none })
    else
      (some u, some { response := "No custom sources. Using default sources. Delivery: " ++ u.send_time ++ " " ++ u.timezone ++ ".",
                      confirmUrl := none })
  else if d.intent = some "done" then
    (some u, some { response := "Setup complete! Your digests will be sent at the scheduled time.",
                    confirmUrl := none })
  else if d.intent = some "unsubscribe" then
    (none, some { response := "You\x27ve been unsubscribed. Sorry to see you go!", confirmUrl := none })
  else
    (some u, some { response := "I can help you: add source, remove source, change time, set timezone, view sources, or say \x27done\x27 when finished.",
                    confirmUrl := none })

/-- One inbound message (app.py lines 254-275): an absent record triggers
new-user creation with the defaults, and the intent is not otherwise
processed on that turn; an existing record goes through the intent
dispatch. -/
def stepUser (tzdb : TZDB) (email : String) (s : Option UserData) (inp : Intent × String) :
    Option UserData :=
  match s with
  | none => some (defaultUser email)
  | some u => (applyIntent tzdb u inp.1 inp.2).1

/-- The record after a sequence of messages from one email address,
starting from no record. -/
def runSteps (tzdb : TZDB) (email : String) (steps : List (Intent × String)) : Option UserData :=
  steps.foldl (stepUser tzdb email) none

/-! ## The scheduler: cron_send_digests (app.py lines 378-412). -/

/-- Python str.split on a colon: every separator splits, yielding one more
part than there are separators. -/
def splitCols : List Char → List (List Char)
  | [] => [[]]
  | c :: rest =>
    if c == ':' then [] :: splitCols rest
    else
      match splitCols rest with
      | h :: t => (c :: h) :: t
      | [] => [[c]]

/-- Python int() on the unsigned decimal strings this program feeds it;
none models the ValueError an unparsable string raises. -/
def digitsToNat? (cs : List Char) : Option Nat :=
  if cs.isEmpty || cs.any (fun c => !c.isDigit) then none
  else some (cs.foldl (fun n c => n * 10 + (c.toNat - 48)) 0)

/-- send_hour, send_minute = map(int, send_time.split(colon)) on app.py
line 397; none models the uncaught ValueError when the record is
malformed (wrong number of parts or non-numeric parts). -/
def parseSendTime (s : String) : Option (Nat × Nat) :=
  match splitCols s.data with
  | [h, m] =>
    match digitsToNat? h, digitsToNat? m with
    | some hh, some mm => some (hh, mm)
    | _, _ => none
  | _ => none

/-- Minute-of-day of the instant (minutes since an epoch, UTC) converted
to a zone with the given offset function: current_utc.astimezone(user_tz)
on app.py line 394. -/
def localMinutesOfDay (off : Int → Int) (nowMin : Int) : Int :=
  (nowMin + off nowMin) % 1440

def localHour (off : Int → Int) (nowMin : Int) : Int :=
  localMinutesOfDay off nowMin / 60

def localMinute (off : Int → Int) (nowMin : Int) : Int :=
  localMinutesOfDay off nowMin % 60

/-- The due test of app.py line 399: exact equality of the local hour and
minute with the parsed send_time. -/
def dueCheck (off : Int → Int) (sendH sendM : Nat) (nowMin : Int) : Bool :=
  localHour off nowMin == (sendH : Int) && localMinute off nowMin == (sendM : Int)

/-- One content item the OpenAI extractor returns (app.py lines 178-182). -/
structure ContentItem where
  title : String
  summary : String
  link : Option String
deriving Repr, DecidableEq

/-- The external collaborators of the digest pipeline.  fetch models
scrape_content, which catches every error itself and returns an empty
list (app.py lines 196-198), so it is a total function.  compose models
the OpenAI completion inside create_digest (lines 230-238); an error is
an uncaught exception.  deliver models resend.Emails.send inside
send_digest (line 244); an error is the exception that send_digest
catches. -/
structure Collab where
  fetch : SourceRef → List ContentItem
  compose : List ContentItem → Except String String
  deliver : String → String → Except String Unit

/-- The fixed default pair of sources (app.py lines 205-208). -/
def default_sources : List SourceRef :=
  [{ name := "Medium AI", url := "https://medium.com/tag/artificial-intelligence" },
   { name := "TechCrunch", url := "https://techcrunch.com" }]

/-- sources_to_scrape on app.py line 205: the user sources, or the fixed
default pair when the list is empty. -/
def sources_to_scrape (u : UserData) : List SourceRef :=
  if u.sources.isEmpty then default_sources else u.sources

/-- The scraping loop of app.py lines 211-213: all items, in source-list
order, items within a source preserved. -/
def gatherContent (fetch : SourceRef → List ContentItem) (u : UserData) : List ContentItem :=
  ((sources_to_scrape u).map fetch).flatten

/-- create_digest (app.py lines 200-238): gather, cap at 20 items, compose. -/
def create_digest (c : Collab) (u : UserData) : Except String String :=
  c.compose ((gatherContent c.fetch u).take 20)

/-- send_digest (app.py lines 240-252): a delivery error is caught and
only logged, so the function always returns; the Bool records whether
delivery actually succeeded. -/
def send_digest (c : Collab) (email content : String) : Bool :=
  match c.deliver email content with
  | Except.ok _ => true
  | Except.error _ => false

/-- The per-user loop of cron_send_digests (app.py lines 389-407).
pytz.timezone and the send_time parse run outside the try block, so their
failures abort the whole endpoint (Except.error); the try block covers
only create_digest, send_digest and the increment, and its except clause
logs and continues with the next user. -/
def cronLoop (c : Collab) (tzdb : TZDB) (nowMin : Int) :
    List UserData → Nat → Except String Nat
  | [], cnt => Except.ok cnt
  | u :: rest, cnt =>
    match tzdb u.timezone with
    | none => Except.error "UnknownTimeZoneError"
    | some off =>
      match parseSendTime u.send_time with
      | none => Except.error "ValueError"
      | some (h, m) =>
        if dueCheck off h m nowMin then
          match create_digest c u with
          | Except.ok content =>
            let _ := send_digest c u.email content
            cronLoop c tzdb nowMin rest (cnt + 1)
          | Except.error _ => cronLoop c tzdb nowMin rest cnt
        else cronLoop c tzdb nowMin rest cnt

/-- cron_send_digests (app.py lines 378-412): the sent count the endpoint
reports, or the uncaught exception that aborts it. -/
def cron_send_digests (c : Collab) (tzdb : TZDB) (nowMin : Int) (users : List UserData) :
    Except String Nat :=
  cronLoop c tzdb nowMin users 0

def exceptOk {ε α : Type} : Except ε α → Bool
  | Except.ok _ => true
  | Except.error _ => false

/-- The users a tick actually counts as sent: due, and composition
succeeded (the delivery outcome is swallowed by send_digest). -/
def sentFor (c : Collab) (tzdb : TZDB) (nowMin : Int) (u : UserData) : Bool :=
  match tzdb u.timezone, parseSendTime u.send_time with
  | some off, some (h, m) => dueCheck off h m nowMin && exceptOk (create_digest c u)
  | _, _ => false

/-- The spec invariant on send_time: a valid HH:MM 24-hour string,
0 ≤ hour ≤ 23, 0 ≤ minute ≤ 59. -/
def validHHMM (s : String) : Bool :=
  match s.data with
  | [h1, h2, c, m1, m2] =>
    c == ':' && h1.isDigit && h2.isDigit && m1.isDigit && m2.isDigit &&
    decide ((h1.toNat - 48) * 10 + (h2.toNat - 48) ≤ 23) &&
    decide ((m1.toNat - 48) * 10 + (m2.toNat - 48) ≤ 59)
  | _ => false

/-- A tiny concrete timezone database for witnesses:
America/Los_Angeles at a fixed offset of 480 minutes behind UTC. -/
def tzdb0 : TZDB :=
  fun s => if s = "America/Los_Angeles" then some (fun _ => (-480 : Int)) else none


/-! ## Concrete fixtures used by witnesses and counterexamples. -/

/-- A collaborator whose delivery always fails while composition succeeds. -/
def cFailDeliver : Collab :=
  { fetch := fun _ => [], compose := fun _ => Except.ok "digest body",
    deliver := fun _ _ => Except.error "delivery failed" }

/-- A collaborator for which everything succeeds. -/
def cOk : Collab :=
  { fetch := fun _ => [], compose := fun _ => Except.ok "digest body",
    deliver := fun _ _ => Except.ok () }

/-- A collaborator whose composition fails exactly when no items were
fetched, and which only finds content at wired.com. -/
def cMixed : Collab :=
  { fetch := fun s => if s.url = "https://wired.com" then [{ title := "t", summary := "s", link := none }] else [],
    compose := fun items => if items.isEmpty then Except.error "compose failed" else Except.ok "digest body",
    deliver := fun _ _ => Except.ok () }

/-- A record with three sources. -/
def u7 : UserData :=
  { email := "w7@example.com",
    sources := [{ name := "Wired", url := "https://wired.com" },
                { name := "Verge", url := "https://theverge.com" },
                { name := "Reddit", url := "https://reddit.com" }],
    timezone := "America/Los_Angeles", send_time := "08:00" }

/-- A record that already has TechCrunch. -/
def uTech : UserData :=
  { email := "w6@example.com",
    sources := [{ name := "Techcrunch", url := "https://techcrunch.com" }],
    timezone := "America/Los_Angeles", send_time := "08:00" }

/-- A record whose only source is wired.com. -/
def uWired : UserData :=
  { email := "wired@example.com",
    sources := [{ name := "Wired", url := "https://wired.com" }],
    timezone := "America/Los_Angeles", send_time := "08:00" }

/-- A message sequence: one greeting (which creates the record), then a
change_time to 09:30. -/
def c5steps : List (Intent × String) :=
  [(⟨some "help", none, none, none⟩, "hello"),
   (⟨some "change_time", none, some "09:30", none⟩, "make it 09:30")]

/-! ## Helper lemmas. -/

lemma isSubstr_nil_left (l : List Char) : isSubstr [] l = true := by
  cases l <;> simp [isSubstr, isPrefixList]

lemma strIn_empty (hay : String) : strIn "" hay = true :=
  isSubstr_nil_left hay.data

lemma truthy_of_validHHMM (s : String) (h : validHHMM s = true) : truthy (some s) = true := by
  unfold validHHMM at h
  unfold truthy
  cases hd : s.data with
  | nil => rw [hd] at h; simp at h
  | cons a l => simp [hd]

lemma truthy_of_ne_empty (s : String) (h : s ≠ "") : truthy (some s) = true := by
  unfold truthy
  cases hd : s.data with
  | nil => exact absurd (String.ext (hd.trans rfl)) h
  | cons a l => simp [hd]

lemma removeFirst_eq_some (txt : String) (a : List SourceRef) (s : SourceRef) (b : List SourceRef)
    (ha : ∀ x ∈ a, matchesSource txt x = false) (hs : matchesSource txt s = true) :
    removeFirst txt (a ++ s :: b) = some (s, a ++ b) := by
  induction a with
  | nil => simp [removeFirst, hs]
  | cons x xs ih =>
    have hx : matchesSource txt x = false := ha x (List.mem_cons_self x xs)
    have ih2 := ih (fun y hy => ha y (List.mem_cons_of_mem _ hy))
    simp [removeFirst, hx, ih2]

lemma removeFirst_eq_none (txt : String) (l : List SourceRef)
    (h : ∀ x ∈ l, matchesSource txt x = false) :
    removeFirst txt l = none := by
  induction l with
  | nil => rfl
  | cons x xs ih =>
    have hx : matchesSource txt x = false := h x (List.mem_cons_self x xs)
    have ih2 := ih (fun y hy => h y (List.mem_cons_of_mem _ hy))
    simp [removeFirst, hx, ih2]

lemma removeFirst_some_split (txt : String) :
    ∀ (l : List SourceRef) (r : SourceRef) (rest : List SourceRef),
      removeFirst txt l = some (r, rest) →
      ∃ a b, l = a ++ r :: b ∧ rest = a ++ b := by
  intro l
  induction l with
  | nil => intro r rest h; simp [removeFirst] at h
  | cons x xs ih =>
    intro r rest h
    by_cases hx : matchesSource txt x = true
    · simp only [removeFirst, hx, if_true, Option.some.injEq, Prod.mk.injEq] at h
      exact ⟨[], xs, by simp [h.1], by simp [h.2]⟩
    · rw [removeFirst, if_neg hx] at h
      cases hrec : removeFirst txt xs with
      | none => rw [hrec] at h; simp at h
      | some p =>
        rw [hrec] at h
        simp only [Option.some.injEq, Prod.mk.injEq] at h
        obtain ⟨a, b, h1, h2⟩ := ih p.1 p.2 (by rw [hrec])
        exact ⟨x :: a, b, by simp [h1, h.1], by simp [h2, ← h.2]⟩

/-- Structural facts about one intent application: how send_time and
sources can change. -/
lemma applyIntent_struct (tzdb : TZDB) (u : UserData) (d : Intent) (raw : String)
    (v : UserData) (r : Option Resp)
    (h : applyIntent tzdb u d raw = (some v, r)) :
    (v.send_time = u.send_time ∨ (truthy d.time = true ∧ v.send_time = d.time.getD "")) ∧
    (v.sources = u.sources
      ∨ (∃ url name, u.sources.any (fun s => s.url == url) = false
           ∧ v.sources = u.sources ++ [{ name := name, url := url }])
      ∨ (∃ rm rest, removeFirst (toLowerStr (d.source.getD "")) u.sources = some (rm, rest)
           ∧ v.sources = rest)) := by
  unfold applyIntent at h
  split at h
  · -- add_source
    try simp only [] at h
    split at h <;>
      (simp only [Prod.mk.injEq, Option.some.injEq] at h
       obtain ⟨hv, -⟩ := h
       subst hv
       exact ⟨Or.inl rfl, Or.inl rfl⟩)
  split at h
  · -- confirm_add_source
    try simp only [] at h
    split at h
    · -- a URL was found in the message
      rename_i url heq
      try simp only [] at h
      split at h
      · -- already present
        simp only [Prod.mk.injEq, Option.some.injEq] at h
        obtain ⟨hv, -⟩ := h
        subst hv
        exact ⟨Or.inl rfl, Or.inl rfl⟩
      · -- appended
        rename_i hany
        rw [Bool.not_eq_true] at hany
        simp only [Prod.mk.injEq, Option.some.injEq] at h
        obtain ⟨hv, -⟩ := h
        subst hv
        exact ⟨Or.inl rfl, Or.inr (Or.inl ⟨url, extract_site_name_from_url url, hany, rfl⟩)⟩
    · simp only [Prod.mk.injEq, Option.some.injEq] at h
      obtain ⟨hv, -⟩ := h
      subst hv
      exact ⟨Or.inl rfl, Or.inl rfl⟩
  split at h
  · -- remove_source
    try simp only [] at h
    split at h
    · rename_i removed rest heq
      simp only [Prod.mk.injEq, Option.some.injEq] at h
      obtain ⟨hv, -⟩ := h
      subst hv
      exact ⟨Or.inl rfl, Or.inr (Or.inr ⟨removed, rest, heq, rfl⟩)⟩
    · simp only [Prod.mk.injEq, Option.some.injEq] at h
      obtain ⟨hv, -⟩ := h
      subst hv
      exact ⟨Or.inl rfl, Or.inl rfl⟩
  split at h
  · -- change_time
    split at h
    · rename_i htime
      try simp only [] at h
      simp only [Prod.mk.injEq, Option.some.injEq] at h
      obtain ⟨hv, -⟩ := h
      subst hv
      exact ⟨Or.inr ⟨htime, rfl⟩, Or.inl rfl⟩
    · simp only [Prod.mk.injEq, Option.some.injEq] at h
      obtain ⟨hv, -⟩ := h
      subst hv
      exact ⟨Or.inl rfl, Or.inl rfl⟩
  split at h
  · -- set_timezone
    split at h
    · try simp only [] at h
      split at h <;>
        (simp only [Prod.mk.injEq, Option.some.injEq] at h
         obtain ⟨hv, -⟩ := h
         subst hv
         exact ⟨Or.inl rfl, Or.inl rfl⟩)
    · simp only [Prod.mk.injEq, Option.some.injEq] at h
      obtain ⟨hv, -⟩ := h
      subst hv
      exact ⟨Or.inl rfl, Or.inl rfl⟩
  split at h
  · -- set_time_and_timezone
    split at h
    · rename_i hboth
      try simp only [] at h
      split at h
      · simp only [Prod.mk.injEq, Option.some.injEq] at h
        obtain ⟨hv, -⟩ := h
        subst hv
        exact ⟨Or.inr ⟨((Bool.and_eq_true _ _).mp hboth).1, rfl⟩, Or.inl rfl⟩
      · simp only [Prod.mk.injEq, Option.some.injEq] at h
        obtain ⟨hv, -⟩ := h
        subst hv
        exact ⟨Or.inl rfl, Or.inl rfl⟩
    · simp only [Prod.mk.injEq, Option.some.injEq] at h
      obtain ⟨hv, -⟩ := h
      subst hv
      exact ⟨Or.inl rfl, Or.inl rfl⟩
  split at h
  · -- view_sources
    split at h <;>
      (try simp only [] at h
       simp only [Prod.mk.injEq, Option.some.injEq] at h
       obtain ⟨hv, -⟩ := h
       subst hv
       exact ⟨Or.inl rfl, Or.inl rfl⟩)
  split at h
  · -- done
    simp only [Prod.mk.injEq, Option.some.injEq] at h
    obtain ⟨hv, -⟩ := h
    subst hv
    exact ⟨Or.inl rfl, Or.inl rfl⟩
  split at h
  · -- unsubscribe: the record is deleted, so the hypothesis is absurd
    simp at h
  · -- help / unrecognized
    simp only [Prod.mk.injEq, Option.some.injEq] at h
    obtain ⟨hv, -⟩ := h
    subst hv
    exact ⟨Or.inl rfl, Or.inl rfl⟩

/-- send_time validity is preserved along any message sequence whose
change_time and set_time_and_timezone intents carry valid HH:MM strings. -/
lemma foldl_send_time (tzdb : TZDB) (email : String) :
    ∀ (steps : List (Intent × String)) (s : Option UserData),
      (∀ p ∈ steps, truthy p.1.time = true → validHHMM (p.1.time.getD "") = true) →
      (∀ u, s = some u → validHHMM u.send_time = true) →
      ∀ v, steps.foldl (stepUser tzdb email) s = some v → validHHMM v.send_time = true := by
  intro steps
  induction steps with
  | nil =>
    intro s _ hs v hv
    exact hs v hv
  | cons p rest ih =>
    intro s hok hs v hv
    rw [List.foldl_cons] at hv
    refine ih (stepUser tzdb email s p) (fun q hq => hok q (List.mem_cons_of_mem _ hq)) ?_ v hv
    intro w hw
    cases s with
    | none =>
      simp only [stepUser, Option.some.injEq] at hw
      subst hw
      exact (by decide : validHHMM "08:00" = true)
    | some u2 =>
      simp only [stepUser] at hw
      have hfull : applyIntent tzdb u2 p.1 p.2 = (some w, (applyIntent tzdb u2 p.1 p.2).2) := by
        rw [← hw]
      obtain ⟨hst, -⟩ := applyIntent_struct tzdb u2 p.1 p.2 w _ hfull
      rcases hst with hst | ⟨ht, he⟩
      · rw [hst]; exact hs u2 rfl
      · rw [he]; exact hok p (List.mem_cons_self p rest) ht

/-- Url uniqueness of the source list is preserved along any message
sequence. -/
lemma foldl_sources_nodup (tzdb : TZDB) (email : String) :
    ∀ (steps : List (Intent × String)) (s : Option UserData),
      (∀ u, s = some u → (u.sources.map SourceRef.url).Nodup) →
      ∀ v, steps.foldl (stepUser tzdb email) s = some v →
        (v.sources.map SourceRef.url).Nodup := by
  intro steps
  induction steps with
  | nil =>
    intro s hs v hv
    exact hs v hv
  | cons p rest ih =>
    intro s hs v hv
    rw [List.foldl_cons] at hv
    refine ih (stepUser tzdb email s p) ?_ v hv
    intro w hw
    cases s with
    | none =>
      simp only [stepUser, Option.some.injEq] at hw
      subst hw
      simp [defaultUser]
    | some u2 =>
      simp only [stepUser] at hw
      have hfull : applyIntent tzdb u2 p.1 p.2 = (some w, (applyIntent tzdb u2 p.1 p.2).2) := by
        rw [← hw]
      have hn := hs u2 rfl
      obtain ⟨-, hsrc⟩ := applyIntent_struct tzdb u2 p.1 p.2 w _ hfull
      rcases hsrc with hsrc | ⟨url, name, hany, happ⟩ | ⟨rm, rest2, heq, hrest⟩
      · rw [hsrc]; exact hn
      · rw [happ, List.map_append]
        have hurl : url ∉ u2.sources.map SourceRef.url := by
          intro hmem
          obtain ⟨x, hx, hxe⟩ := List.mem_map.mp hmem
          have : u2.sources.any (fun s => s.url == url) = true :=
            List.any_eq_true.mpr ⟨x, hx, by simp [hxe]⟩
          rw [hany] at this
          exact Bool.false_ne_true this
        refine List.Nodup.append hn (List.nodup_singleton _) ?_
        intro a ha ha2
        simp only [List.map_cons, List.map_nil, List.mem_singleton] at ha2
        subst ha2
        exact hurl ha
      · obtain ⟨a, b, hsplit, hr⟩ := removeFirst_some_split _ _ _ _ heq
        rw [hrest, hr]
        rw [hsplit] at hn
        have hsub : List.Sublist ((a ++ b).map SourceRef.url) ((a ++ rm :: b).map SourceRef.url) :=
          ((List.sublist_cons_self rm b).append_left a).map SourceRef.url
        exact hn.sublist hsub

/-- The cron loop counts exactly the due users whose composition succeeds,
provided every record has a resolvable timezone and a parsable send_time. -/
lemma cronLoop_count (c : Collab) (tzdb : TZDB) (now : Int) :
    ∀ (l : List UserData) (cnt : Nat),
      (∀ u ∈ l, (tzdb u.timezone).isSome = true ∧ (parseSendTime u.send_time).isSome = true) →
      cronLoop c tzdb now l cnt = Except.ok (cnt + l.countP (sentFor c tzdb now)) := by
  intro l
  induction l with
  | nil => intro cnt _; simp [cronLoop]
  | cons u rest ih =>
    intro cnt hl
    obtain ⟨h1, h2⟩ := hl u (List.mem_cons_self u rest)
    obtain ⟨off, hoff⟩ := Option.isSome_iff_exists.mp h1
    obtain ⟨hm, hp⟩ := Option.isSome_iff_exists.mp h2
    obtain ⟨h, m⟩ := hm
    have hrest : ∀ q ∈ rest, (tzdb q.timezone).isSome = true ∧ (parseSendTime q.send_time).isSome = true :=
      fun q hq => hl q (List.mem_cons_of_mem _ hq)
    have hsent : sentFor c tzdb now u = (dueCheck off h m now && exceptOk (create_digest c u)) := by
      simp [sentFor, hoff, hp]
    by_cases hdue : dueCheck off h m now = true
    · cases hcd : create_digest c u with
      | ok content =>
        have : cronLoop c tzdb now (u :: rest) cnt = cronLoop c tzdb now rest (cnt + 1) := by
          simp [cronLoop, hoff, hp, hdue, hcd]
        rw [this, ih (cnt + 1) hrest, List.countP_cons, hsent, hdue, hcd]
        simp [exceptOk]
        omega
      | error e =>
        have : cronLoop c tzdb now (u :: rest) cnt = cronLoop c tzdb now rest cnt := by
          simp [cronLoop, hoff, hp, hdue, hcd]
        rw [this, ih cnt hrest, List.countP_cons, hsent, hdue, hcd]
        simp [exceptOk]
    · have hdue2 : dueCheck off h m now = false := by
        revert hdue; cases dueCheck off h m now <;> simp
      have : cronLoop c tzdb now (u :: rest) cnt = cronLoop c tzdb now rest cnt := by
        simp [cronLoop, hoff, hp, hdue2]
      rw [this, ih cnt hrest, List.countP_cons, hsent, hdue2]
      simp

/-! ## Claim theorems. -/

/-- C1: for a user record whose send_time parses to (h, m) and whose
timezone resolves to the offset function off, the scheduler due test of
app.py line 399 succeeds at an instant exactly when the instant converted
to the record timezone has local hour h and local minute m; in
particular it fails whenever the local time is one minute earlier or
later. -/
theorem C1_dueCheck_iff (tzdb : TZDB) (off : Int → Int) (u : UserData) (h m : Nat) (now : Int)
    (htz : tzdb u.timezone = some off)
    (hp : parseSendTime u.send_time = some (h, m)) :
    dueCheck off h m now = true ↔
      (localHour off now = (h : Int) ∧ localMinute off now = (m : Int)) := by
  simp [dueCheck]

/-- Witness for C1: the default record (send_time 08:00 in
America/Los_Angeles, offset -480) is due at the UTC instant 960 minutes
(08:00 local), and not due one minute earlier or later. -/
theorem C1_witness :
    tzdb0 (defaultUser "u@example.com").timezone = some (fun _ => (-480 : Int))
    ∧ parseSendTime (defaultUser "u@example.com").send_time = some (8, 0)
    ∧ dueCheck (fun _ => (-480 : Int)) 8 0 960 = true
    ∧ dueCheck (fun _ => (-480 : Int)) 8 0 959 = false
    ∧ dueCheck (fun _ => (-480 : Int)) 8 0 961 = false := by
  refine ⟨rfl, rfl, ?_, by decide, by decide⟩
  exact (C1_dueCheck_iff tzdb0 (fun _ => (-480 : Int)) (defaultUser "u@example.com")
    8 0 960 rfl rfl).mpr (by decide)

/-- C4 (code bug evidence): the set_timezone branch with an absent
timezone field ends the handler without a return statement, so the
request gets no response body at all. -/
theorem C4_no_response :
    (applyIntent tzdb0 (defaultUser "c4@example.com")
        ⟨some "set_timezone", none, none, none⟩ "set my timezone").2 = none := rfl

/-- C5 counterexample: the claim as stated is false.  A change_time
intent whose resolver-supplied time string is 25:99 is applied verbatim,
so a reachable record carries a send_time that is not a valid HH:MM
string. -/
theorem C5_counterexample :
    runSteps tzdb0 "c5@example.com"
      [(⟨some "help", none, none, none⟩, "hello"),
       (⟨some "change_time", none, some "25:99", none⟩, "send at 25:99")]
      = some { defaultUser "c5@example.com" with send_time := "25:99" }
    ∧ validHHMM "25:99" = false := ⟨rfl, by decide⟩

/-- C5 amended: if every applied intent that carries a truthy time field
carries a valid HH:MM string (the resolver contract of the spec), then
every reachable record has a valid HH:MM send_time. -/
theorem C5_send_time_invariant (tzdb : TZDB) (email : String)
    (steps : List (Intent × String))
    (hok : ∀ p ∈ steps, truthy p.1.time = true → validHHMM (p.1.time.getD "") = true) :
    ∀ v, runSteps tzdb email steps = some v → validHHMM v.send_time = true := by
  intro v hv
  exact foldl_send_time tzdb email steps none hok (fun u hu => Option.noConfusion hu) v hv

/-- Witness for C5: a record created and then set to 09:30 by a
change_time intent has a valid send_time. -/
theorem C5_witness :
    validHHMM ({ defaultUser "w5@example.com" with send_time := "09:30" }).send_time = true :=
  C5_send_time_invariant tzdb0 "w5@example.com" c5steps (by decide) _ rfl

/-- C10: a remove_source intent whose source field is absent defaults to
the empty string, and the empty string is a substring of every name and
url, so the first source in a non-empty list is removed. -/
theorem C10_remove_default_empty (tzdb : TZDB) (u : UserData) (ti tz : Option String)
    (raw : String) (s : SourceRef) (rest : List SourceRef)
    (h : u.sources = s :: rest) :
    applyIntent tzdb u ⟨some "remove_source", none, ti, tz⟩ raw
      = (some { u with sources := rest },
         some { response := "Removed " ++ s.name ++ " from your sources.", confirmUrl := none }) := by
  have h1 : strIn (toLowerStr "") (toLowerStr s.name) = true := isSubstr_nil_left _
  have hm : matchesSource (toLowerStr "") s = true := by simp [matchesSource, h1]
  simp [applyIntent, h, removeFirst, hm]

/-- Witness for C10: removing with an absent source field removes the
first of the three sources of u7. -/
theorem C10_witness :
    applyIntent tzdb0 u7 ⟨some "remove_source", none, none, none⟩ "remove"
      = (some { u7 with sources := [{ name := "Verge", url := "https://theverge.com" },
                                    { name := "Reddit", url := "https://reddit.com" }] },
         some { response := "Removed Wired from your sources.", confirmUrl := none }) :=
  C10_remove_default_empty tzdb0 u7 none none "remove"
    { name := "Wired", url := "https://wired.com" }
    [{ name := "Verge", url := "https://theverge.com" },
     { name := "Reddit", url := "https://reddit.com" }] rfl

/-- C2: set_time_and_timezone with a valid HH:MM time and a timezone that
resolves against the database sets both fields together; when the
timezone is invalid or either field is absent, neither field changes and
a failure response is returned. -/
theorem C2_set_time_and_timezone (tzdb : TZDB) (u : UserData) (src : Option String)
    (t tz : String) (raw : String) :
    (validHHMM t = true → tz ≠ "" → (tzdb tz).isSome = true →
      applyIntent tzdb u ⟨some "set_time_and_timezone", src, some t, some tz⟩ raw
        = (some { u with send_time := t, timezone := tz },
           some { response := "Perfect! I\x27ll send your digest at " ++ t ++ " " ++ tz ++ ".",
                  confirmUrl := none }))
    ∧ (∀ d : Intent, d.intent = some "set_time_and_timezone" →
        (d.time = none ∨ d.timezone = none ∨ tzdb (d.timezone.getD "") = none) →
        (applyIntent tzdb u d raw).1 = some u
          ∧ ((applyIntent tzdb u d raw).2
               = some { response := "Please specify both time and timezone (e.g., \x275:03 pm pst\x27).",
                        confirmUrl := none }
             ∨ (applyIntent tzdb u d raw).2
               = some { response := "Invalid timezone. Please try again with a valid timezone.",
                        confirmUrl := none })) := by
  constructor
  · intro hv htz hiss
    have ht : truthy (some t) = true := truthy_of_validHHMM t hv
    have htz2 : truthy (some tz) = true := truthy_of_ne_empty tz htz
    obtain ⟨off, hoff⟩ := Option.isSome_iff_exists.mp hiss
    simp [applyIntent, ht, htz2, hoff]
  · intro d hd hbad
    by_cases hc : (truthy d.time && truthy d.timezone) = true
    · obtain ⟨ht2, hz2⟩ := (Bool.and_eq_true _ _).mp hc
      have hz3 : tzdb (d.timezone.getD "") = none := by
        rcases hbad with h1 | h2 | h3
        · rw [h1] at ht2; exact absurd ht2 (by simp [truthy])
        · rw [h2] at hz2; exact absurd hz2 (by simp [truthy])
        · exact h3
      refine ⟨?_, Or.inr ?_⟩ <;> simp [applyIntent, hd, hc, hz3]
    · refine ⟨?_, Or.inl ?_⟩ <;> simp [applyIntent, hd, hc]

/-- Witness for C2: a concrete atomic update of both fields. -/
theorem C2_witness :
    applyIntent tzdb0 (defaultUser "w2@example.com")
        ⟨some "set_time_and_timezone", none, some "17:03", some "America/Los_Angeles"⟩ "5:03 pm pst"
      = (some { defaultUser "w2@example.com" with
                  send_time := "17:03",
                  timezone := "America/Los_Angeles" },
         some { response := "Perfect! I\x27ll send your digest at " ++ "17:03" ++ " " ++ "America/Los_Angeles" ++ ".",
                confirmUrl := none }) :=
  (C2_set_time_and_timezone tzdb0 (defaultUser "w2@example.com") none
    "17:03" "America/Los_Angeles" "5:03 pm pst").1 (by decide) (by decide) rfl

/-- C7: remove_source with a non-empty source text removes exactly the
first source (in list order) whose lowered name or url contains the
lowered text, preserving the rest in order; when no source matches, the
list is unchanged and a not-found response is returned. -/
theorem C7_remove_first_match (tzdb : TZDB) (u : UserData) (src : Option String)
    (ti tz : Option String) (raw : String)
    (hne : src.getD "" ≠ "") :
    (∀ a s b, u.sources = a ++ s :: b →
        (∀ x ∈ a, matchesSource (toLowerStr (src.getD "")) x = false) →
        matchesSource (toLowerStr (src.getD "")) s = true →
        applyIntent tzdb u ⟨some "remove_source", src, ti, tz⟩ raw
          = (some { u with sources := a ++ b },
             some { response := "Removed " ++ s.name ++ " from your sources.",
                    confirmUrl := none }))
    ∧ ((∀ x ∈ u.sources, matchesSource (toLowerStr (src.getD "")) x = false) →
        applyIntent tzdb u ⟨some "remove_source", src, ti, tz⟩ raw
          = (some u, some { response := "Source not found in your list.", confirmUrl := none })) := by
  constructor
  · intro a s b hsplit ha hs
    have hrf := removeFirst_eq_some (toLowerStr (src.getD "")) a s b ha hs
    rw [← hsplit] at hrf
    simp [applyIntent, hrf]
  · intro hnone
    have hrf := removeFirst_eq_none (toLowerStr (src.getD "")) u.sources hnone
    simp [applyIntent, hrf]

/-- Witness for C7: removing the text verge from u7 removes exactly the
middle source and keeps the order of the other two. -/
theorem C7_witness :
    applyIntent tzdb0 u7 ⟨some "remove_source", some "Verge", none, none⟩ "remove verge"
      = (some { u7 with sources := [{ name := "Wired", url := "https://wired.com" }]
                                     ++ [{ name := "Reddit", url := "https://reddit.com" }] },
         some { response := "Removed " ++ "Verge" ++ " from your sources.", confirmUrl := none }) :=
  (C7_remove_first_match tzdb0 u7 (some "Verge") none none "remove verge" (by decide)).1
    [{ name := "Wired", url := "https://wired.com" }]
    { name := "Verge", url := "https://theverge.com" }
    [{ name := "Reddit", url := "https://reddit.com" }]
    rfl (by decide) (by decide)

/-- C3 counterexample: the claim as stated is false.  A due user whose
delivery fails is still counted: send_digest swallows the delivery error
(app.py lines 240-252), and the tick increments its sent count right
after the call, so a failing Notifier still yields a sent count of 1. -/
theorem C3_counterexample :
    cron_send_digests cFailDeliver tzdb0 960 [defaultUser "victim@example.com"] = Except.ok 1
    ∧ cFailDeliver.deliver "victim@example.com" "digest body" = Except.error "delivery failed"
    ∧ send_digest cFailDeliver "victim@example.com" "digest body" = false := ⟨rfl, rfl, rfl⟩

/-- C3 amended: over any user list whose records have resolvable
timezones and parsable send_times, the tick completes and reports
exactly the number of users that are due and whose composition succeeds;
a fetch failure is absorbed by scrape_content, a compose failure is
caught per user and only excluded from the count, and a delivery failure
is swallowed inside send_digest, so the user still counts as sent. -/
theorem C3_per_user_isolation (c : Collab) (tzdb : TZDB) (now : Int) (users : List UserData)
    (hres : ∀ u ∈ users,
      (tzdb u.timezone).isSome = true ∧ (parseSendTime u.send_time).isSome = true) :
    cron_send_digests c tzdb now users = Except.ok (users.countP (sentFor c tzdb now)) := by
  rw [cron_send_digests, cronLoop_count c tzdb now users 0 hres, Nat.zero_add]

/-- Witness for C3: two due users, the first with a failing composition;
the tick still completes and counts exactly the second. -/
theorem C3_witness :
    cron_send_digests cMixed tzdb0 960 [defaultUser "a@example.com", uWired] = Except.ok 1 :=
  (C3_per_user_isolation cMixed tzdb0 960 [defaultUser "a@example.com", uWired]
    (by decide)).trans rfl

/-- C6: along any message sequence a record has at most one source per
url (the mapped url list has no duplicates), and confirming a URL that is
already present leaves the record unchanged and answers with the
already-present response. -/
theorem C6_url_unique (tzdb : TZDB) :
    (∀ email steps v, runSteps tzdb email steps = some v →
        (v.sources.map SourceRef.url).Nodup)
    ∧ (∀ (u : UserData) (raw url : String),
        searchHttpUrl raw = some url →
        u.sources.any (fun s => s.url == url) = true →
        applyIntent tzdb u ⟨some "confirm_add_source", none, none, none⟩ raw
          = (some u,
             some { response := "You already have " ++ extract_site_name_from_url url ++ " in your sources.",
                    confirmUrl := none })) := by
  constructor
  · intro email steps v hv
    exact foldl_sources_nodup tzdb email steps none (fun u hu => Option.noConfusion hu) v hv
  · intro u raw url hurl hany
    simp [applyIntent, hurl, hany]

/-- Witness for C6: a record that reached one TechCrunch source has
unique urls, and confirming TechCrunch again changes nothing. -/
theorem C6_witness :
    ((defaultUser "w6b@example.com").sources.map SourceRef.url).Nodup
    ∧ applyIntent tzdb0 uTech ⟨some "confirm_add_source", none, none, none⟩
          "confirm add source https://techcrunch.com"
        = (some uTech,
           some { response := "You already have " ++ extract_site_name_from_url "https://techcrunch.com" ++ " in your sources.",
                  confirmUrl := none }) := by
  constructor
  · exact (C6_url_unique tzdb0).1 "w6b@example.com"
      [(⟨some "help", none, none, none⟩, "hi")] (defaultUser "w6b@example.com") rfl
  · exact (C6_url_unique tzdb0).2 uTech "confirm add source https://techcrunch.com"
      "https://techcrunch.com" rfl (by decide)

/-- C9: a due user with an empty source list is served from exactly the
fixed default pair of sources, and on full success the tick still
reports one sent for that user. -/
theorem C9_default_pair (c : Collab) (tzdb : TZDB) (u : UserData) (now : Int)
    (off : Int → Int) (h m : Nat) (body : String)
    (hs : u.sources = [])
    (htz : tzdb u.timezone = some off)
    (hp : parseSendTime u.send_time = some (h, m))
    (hdue : dueCheck off h m now = true)
    (hc : c.compose ((gatherContent c.fetch u).take 20) = Except.ok body) :
    sources_to_scrape u = default_sources
    ∧ gatherContent c.fetch u = ((default_sources.map c.fetch)).flatten
    ∧ cron_send_digests c tzdb now [u] = Except.ok 1 := by
  have h1 : sources_to_scrape u = default_sources := by simp [sources_to_scrape, hs]
  refine ⟨h1, by simp [gatherContent, h1], ?_⟩
  simp [cron_send_digests, cronLoop, htz, hp, hdue, create_digest, hc]

/-- Witness for C9: the default record has no sources and is served from
the default pair; the tick reports one sent. -/
theorem C9_witness :
    sources_to_scrape (defaultUser "w9@example.com") = default_sources
    ∧ gatherContent cOk.fetch (defaultUser "w9@example.com")
        = ((default_sources.map cOk.fetch)).flatten
    ∧ cron_send_digests cOk tzdb0 960 [defaultUser "w9@example.com"] = Except.ok 1 :=
  C9_default_pair cOk tzdb0 (defaultUser "w9@example.com") 960 (fun _ => (-480 : Int))
    8 0 "digest body" rfl rfl rfl (by decide) rfl

/-- C8: parse_url_from_text is a function of the text and follows the
step order of the source: a leftmost URL literal is returned verbatim;
otherwise the result is computed from the stop-word-stripped text (bare
domain, then the fixed site table, then the .com guess), and the result
is none exactly when the stripped text is empty.  The three scenarios of
the spec hold concretely. -/
theorem C8_parse_url_steps :
    (∀ text url, searchHttpUrl text = some url → parse_url_from_text text = some url)
    ∧ (∀ text, searchHttpUrl text = none →
        parse_url_from_text text = resolveStripped (stripped_text text))
    ∧ (∀ text, searchHttpUrl text = none →
        (parse_url_from_text text = none ↔ stripped_text text = []))
    ∧ parse_url_from_text "techcrunch" = some "https://techcrunch.com"
    ∧ parse_url_from_text "example.org" = some "https://example.org"
    ∧ parse_url_from_text "" = none := by
  refine ⟨?_, ?_, ?_, by decide, by decide, by decide⟩
  · intro text url h
    simp [parse_url_from_text, h]
  · intro text h
    simp [parse_url_from_text, h]
  · intro text h
    simp only [parse_url_from_text, h]
    cases ht : stripped_text text with
    | nil =>
      refine ⟨fun _ => rfl, fun _ => by decide⟩
    | cons a l =>
      constructor
      · intro hn
        rw [resolveStripped] at hn
        split at hn
        · exact absurd hn (by simp)
        · split at hn
          · exact absurd hn (by simp)
          · simp at hn
      · intro hfalse
        exact List.noConfusion hfalse

/-- Witness for C8: a text containing a URL literal resolves to its
first occurrence verbatim. -/
theorem C8_witness :
    parse_url_from_text "see https://news.ycombinator.com/item today"
      = some "https://news.ycombinator.com/item" :=
  C8_parse_url_steps.1 "see https://news.ycombinator.com/item today"
    "https://news.ycombinator.com/item" (by decide)
